import Mathlib

/-!
Shallow embedding of the tmux session manager (`tmux-manager.py`).

The embedded fragment covers the Inventory Collector (`refresh`,
`get_windows`: line-oriented parsing of the multiplexer's colon-delimited
status output) and the Safety & Selection Engine (session safety
classification, selection-expression parsing, bounds filtering, and the
destroyable-session filter of `interactive_close_session`).

Python strings are modelled as `List Char`; Python's `str.split(sep)`,
`str.split(sep, 1)`, `str.strip()` and `int(...)` are embedded as
executable functions below.  Fallible code (Python `ValueError` from
`int(...)`) is modelled with `Except`.
-/

deriving instance DecidableEq for Except

namespace TmuxManager

/-- The characters removed by Python's `str.strip()` (ASCII whitespace). -/
def isPySpace (c : Char) : Bool :=
  c = ' ' || c = '\t' || c = '\n' || c = '\x0d' || c = '\x0b' || c = '\x0c'

/-- Left strip: drop leading whitespace. -/
def lstripL (xs : List Char) : List Char := xs.dropWhile isPySpace

/-- Right strip: drop trailing whitespace. -/
def rstripL (xs : List Char) : List Char := (xs.reverse.dropWhile isPySpace).reverse

/-- Python `str.strip()`. -/
def pyStrip (xs : List Char) : List Char := rstripL (lstripL xs)

/-- Python `str.split(sep)` for a one-character separator: splits at every
occurrence of `sep`, keeping empty fields (`"".split(',') == ['']`). -/
def pySplit (sep : Char) : List Char → List (List Char)
  | [] => [[]]
  | c :: rest =>
    if c = sep then
      [] :: pySplit sep rest
    else
      match pySplit sep rest with
      | [] => [[c]]
      | t :: ts => (c :: t) :: ts

/-- Python `str.split(sep, 1)` restricted to inputs containing `sep`:
splits at the first occurrence of `sep`.  (The source guards the call with
`if sep in part`.) -/
def splitOnce (sep : Char) : List Char → List Char × List Char
  | [] => ([], [])
  | c :: rest =>
    if c = sep then
      ([], rest)
    else
      let p := splitOnce sep rest
      (c :: p.1, p.2)

/-- Decimal value of a digit list (most significant first). -/
def digitsToNat (ds : List Char) : Nat :=
  ds.foldl (fun a c => 10 * a + (c.toNat - 48)) 0

/-- Digit/underscore scanner for Python `int(...)`: consumes digits, allows a
single underscore between two digits (PEP 515), rejects anything else. -/
def natCore (acc : Nat) : List Char → Option Nat
  | [] => some acc
  | c :: rest =>
    if c.isDigit then natCore (10 * acc + (c.toNat - 48)) rest
    else if c = '_' then
      match rest with
      | [] => none
      | d :: _ => if d.isDigit then natCore acc rest else none
    else none

/-- Magnitude part of Python `int(...)`: a nonempty digit string (with
optional interior underscores); anything else is a `ValueError` (`none`). -/
def natPart : List Char → Option Nat
  | [] => none
  | c :: rest => if c.isDigit then natCore 0 (c :: rest) else none

/-- Python `int(...)` after stripping: optional sign followed by digits. -/
def pyIntCore : List Char → Option Int
  | [] => none
  | c :: rest =>
    if c = '+' then (natPart rest).map Int.ofNat
    else if c = '-' then (natPart rest).map (fun v => -(v : Int))
    else (natPart (c :: rest)).map Int.ofNat

/-- Python `int(s)`: strips whitespace, then parses an optional sign and a
digit string; `none` models the `ValueError` raise. -/
def pyInt (xs : List Char) : Option Int := pyIntCore (pyStrip xs)

/-- Python `range(a, b)` over `Int`, as a list (empty when `b ≤ a`). -/
def intRange (a b : Int) : List Int :=
  (List.range (b - a).toNat).map (fun k => a + (k : Int))

/-! ## Selection-expression parsing

`interactive_close_session`, lines 218–235: the selection string is split
on commas; each token is stripped; a token containing `-` is split once at
the first `-` and both halves go through `int(...)` with the resulting
range order-normalized; a nonempty token without `-` goes through
`int(...)` directly; an empty token is skipped.  Any `ValueError` aborts
the whole parse (`InvalidSelection`, modelled as `Except.error ()`).
Afterwards indices outside `[0, sessionCount)` are dropped and the rest
deduplicated and sorted. -/

/-- Parse one already-stripped token into its (1-based input, 0-based
output) index contribution. -/
def parseTokenCore (part : List Char) : Except Unit (List Int) :=
  if part.contains '-' then
    match pyInt (splitOnce '-' part).1, pyInt (splitOnce '-' part).2 with
    | some va, some vb =>
      let q := if va - 1 > vb - 1 then (vb - 1, va - 1) else (va - 1, vb - 1)
      .ok (intRange q.1 (q.2 + 1))
    | _, _ => .error ()
  else if part ≠ [] then
    match pyInt part with
    | some v => .ok [v - 1]
    | none => .error ()
  else
    .ok []

/-- Parse one raw comma-separated token (`part = part.strip()` first). -/
def parseToken (t : List Char) : Except Unit (List Int) :=
  parseTokenCore (pyStrip t)

/-- Fold the token parser over all tokens, concatenating contributions;
any failing token fails the whole parse. -/
def parseTokens : List (List Char) → Except Unit (List Int)
  | [] => .ok []
  | t :: ts => do
    let i ← parseToken t
    let rest ← parseTokens ts
    pure (i ++ rest)

/-- The raw index list of a selection expression (before bounds filtering). -/
def parseIndicesL (input : List Char) : Except Unit (List Int) :=
  parseTokens (pySplit ',' input)

/-- Line 235: keep only indices `i` with `0 ≤ i < sessionCount`. -/
def filterIndices (l : List Int) (sessionCount : Nat) : List Int :=
  l.filter (fun i => 0 ≤ i && i < (sessionCount : Int))

/-- Insert into an ascending list, keeping it ascending. -/
def insertSorted (x : Int) : List Int → List Int
  | [] => [x]
  | y :: ys => if x ≤ y then x :: y :: ys else y :: insertSorted x ys

/-- Insertion sort (ascending). -/
def insertionSort : List Int → List Int
  | [] => []
  | x :: xs => insertSorted x (insertionSort xs)

/-- `sorted(set(...))`: distinct elements in ascending order. -/
def sortedDedup (l : List Int) : List Int :=
  insertionSort l.dedup

/-- `parseSelection(input, sessionCount)` as a set of 0-based indices
(`Except.error ()` models the `InvalidSelection` / `ValueError` path). -/
def parseSelectionL (input : List Char) (sessionCount : Nat) : Except Unit (Finset Int) :=
  (parseIndicesL input).map (fun l => (filterIndices l sessionCount).toFinset)

/-- String wrapper for `parseSelectionL`. -/
def parseSelection (input : String) (sessionCount : Nat) : Except Unit (Finset Int) :=
  parseSelectionL input.toList sessionCount

/-- The ordered index list actually iterated by the close action
(`indices = sorted(set(i for i in indices if 0 <= i < len(self.sessions)))`). -/
def resolveSelection (input : String) (sessionCount : Nat) : Except Unit (List Int) :=
  (parseIndicesL input.toList).map (fun l => sortedDedup (filterIndices l sessionCount))

/-! ## Sessions and safety classification -/

/-- A session record as built by `refresh` (lines 60–67).  The formatted
creation time is kept as the parsed epoch value. -/
structure Session where
  id : String
  name : String
  attached : Bool
  windows : Int
  is_current : Bool
  created : Option Nat
deriving DecidableEq

/-- Derived safety classification of the spec's data model. -/
inductive SafetyClass where
  | Current
  | Attached
  | Protected
  | Safe
deriving DecidableEq

/-- The classification cascade of `display_session_list` (lines 165–179),
identical to the guard of `interactive_close_session` line 243:
current, else attached, else name `workspace`, else safe. -/
def classify (s : Session) : SafetyClass :=
  if s.is_current then .Current
  else if s.attached then .Attached
  else if s.name = "workspace" then .Protected
  else .Safe

/-- One step of the `to_close` loop (lines 241–245): look up the selected
session and skip it when it is current, attached, or named `workspace`.
The indices come from the bounds filter, so each lookup is in range. -/
def destroyStep (sessions : List Session) (idx : Int) : Option Session :=
  match sessions.get? idx.toNat with
  | none => none
  | some s =>
    if s.is_current || s.attached || s.name = "workspace" then none
    else some s

/-- Lines 240–245: walk the selected indices, keeping only the sessions the
skip guard lets through (`to_close`). -/
def filterDestroyable (sessions : List Session) (indices : List Int) : List Session :=
  indices.filterMap (destroyStep sessions)

/-- The close action's resolution of a selection string into the list of
sessions it will kill after confirmation. -/
def destroyTargets (sessions : List Session) (input : String) : Except Unit (List Session) :=
  (resolveSelection input sessions.length).map (filterDestroyable sessions)

/-! ## Inventory Collector -/

/-- Result of `run(*args)` (lines 38–44): `none` models the subprocess
raising (binary unreachable); otherwise the stripped stdout.  The except
clause prints the error and returns `""`. -/
def runResult (r : Option String) : String :=
  match r with
  | none => ""
  | some out => out

/-- Build a session record from the split fields of one `list-sessions`
line (lines 54–67): fewer than 5 fields skips the line; `int(parts[3])`
raises `ValueError` on a non-numeric windows field (not caught inside
`refresh`); the created timestamp is kept only when all-digit. -/
def sessionFields (current : Option String) (parts : List (List Char)) :
    Except String (Option Session) :=
  if parts.length < 5 then .ok none
  else
    match pyInt (parts.getD 3 []) with
    | none => .error "ValueError"
    | some w =>
      let name := String.mk (parts.getD 1 [])
      let p4 := parts.getD 4 []
      .ok (some {
        id := String.mk (parts.getD 0 [])
        name := name
        attached := parts.getD 2 [] = ['1']
        windows := w
        is_current := match current with
          | some c => name = c
          | none => false
        created := if p4 ≠ [] ∧ ∀ c ∈ p4, c.isDigit then some (digitsToNat p4) else none })

/-- Parse one line of `list-sessions` output: empty lines are skipped,
the rest is split on colons and assembled by `sessionFields`. -/
def parseSessionLine (current : Option String) (line : List Char) :
    Except String (Option Session) :=
  if line = [] then .ok none
  else sessionFields current (pySplit ':' line)

/-- The session-list loop of `refresh`: first `ValueError` aborts. -/
def sessionsGo (current : Option String) : List (List Char) → Except String (List Session)
  | [] => .ok []
  | l :: ls => do
    let s? ← parseSessionLine current l
    let rest ← sessionsGo current ls
    match s? with
    | some s => .ok (s :: rest)
    | none => .ok rest

/-- Parse the whole `list-sessions` output (split on newlines). -/
def parseSessions (current : Option String) (raw : String) : Except String (List Session) :=
  sessionsGo current (pySplit '\n' raw.toList)

/-- `refresh()` (lines 46–67) as a function of the two `run` outputs:
`current_session = current or None`, then the session lines are parsed. -/
def refreshModel (currentRaw sessionsRaw : String) :
    Except String (Option String × List Session) :=
  let current := if currentRaw = "" then none else some currentRaw
  (parseSessions current sessionsRaw).map (fun ss => (current, ss))

/-- A window record as built by `get_windows` (lines 78–83). -/
structure Window where
  id : String
  name : String
  active : Bool
  panes : Int
deriving DecidableEq

/-- Build a window record from the split fields of one `list-windows` line
(lines 75–83): fewer than 4 fields skips the line; a non-numeric pane count
raises `ValueError` (`int(parts[3])`), uncaught inside `get_windows`. -/
def windowFields (parts : List (List Char)) : Except String (Option Window) :=
  if parts.length < 4 then .ok none
  else
    match pyInt (parts.getD 3 []) with
    | none => .error "ValueError"
    | some p =>
      .ok (some {
        id := String.mk (parts.getD 0 [])
        name := String.mk (parts.getD 1 [])
        active := parts.getD 2 [] = ['1']
        panes := p })

/-- Parse one line of `list-windows` output. -/
def parseWindowLine (line : List Char) : Except String (Option Window) :=
  if line = [] then .ok none
  else windowFields (pySplit ':' line)

/-- The window-list loop of `get_windows`. -/
def windowsGo : List (List Char) → Except String (List Window)
  | [] => .ok []
  | l :: ls => do
    let w? ← parseWindowLine l
    let rest ← windowsGo ls
    match w? with
    | some w => .ok (w :: rest)
    | none => .ok rest

/-- `get_windows(session_name)` as a function of the `run` output. -/
def getWindowsModel (raw : String) : Except String (List Window) :=
  windowsGo (pySplit '\n' raw.toList)

/-! ## Helper lemmas -/

/-- The `Safe` class is exactly absence of all three unsafe conditions. -/
lemma classify_eq_safe_iff (s : Session) :
    classify s = .Safe ↔ s.is_current = false ∧ s.attached = false ∧ s.name ≠ "workspace" := by
  unfold classify
  cases hc : s.is_current <;> cases ha : s.attached <;>
    by_cases hn : s.name = "workspace" <;> simp [hc, ha, hn]

/-- The skip guard of the `to_close` loop is false exactly on `Safe` sessions. -/
lemma destroy_guard_iff (s : Session) :
    (s.is_current || s.attached || decide (s.name = "workspace")) = false ↔
      classify s = .Safe := by
  rw [classify_eq_safe_iff]
  simp [and_assoc]

/-- One loop step keeps exactly the selected sessions classified `Safe`. -/
lemma destroyStep_eq_some {sessions : List Session} {i : Int} {s : Session} :
    destroyStep sessions i = some s ↔
      sessions.get? i.toNat = some s ∧ classify s = .Safe := by
  unfold destroyStep
  split
  · rename_i hget
    rw [hget]
    simp
  · rename_i s' hget
    rw [hget]
    by_cases hb : (s'.is_current || s'.attached || decide (s'.name = "workspace")) = true
    · rw [if_pos hb]
      constructor
      · intro h
        cases h
      · rintro ⟨hss, hsafe⟩
        have h : s' = s := by injection hss
        rw [h, (destroy_guard_iff s).mpr hsafe] at hb
        cases hb
    · have hb' : (s'.is_current || s'.attached || decide (s'.name = "workspace")) = false := by
        revert hb
        cases s'.is_current || s'.attached || decide (s'.name = "workspace") <;> simp
      rw [if_neg hb]
      constructor
      · intro h
        have hs : s' = s := by injection h
        have hsafe := (destroy_guard_iff s').mp hb'
        rw [hs] at hsafe
        exact ⟨h, hsafe⟩
      · rintro ⟨hss, _⟩
        exact hss

/-- Membership in `filterDestroyable`: exactly the selected sessions whose
classification is `Safe`. -/
lemma mem_filterDestroyable_iff {sessions : List Session} {indices : List Int}
    {s : Session} :
    s ∈ filterDestroyable sessions indices ↔
      ∃ i ∈ indices, sessions.get? i.toNat = some s ∧ classify s = .Safe := by
  unfold filterDestroyable
  rw [List.mem_filterMap]
  constructor
  · rintro ⟨i, hi, hf⟩
    exact ⟨i, hi, destroyStep_eq_some.mp hf⟩
  · rintro ⟨i, hi, hget, hsafe⟩
    exact ⟨i, hi, destroyStep_eq_some.mpr ⟨hget, hsafe⟩⟩

/-- Members of `filterDestroyable` are classified `Safe`. -/
lemma mem_filterDestroyable_safe {sessions : List Session} {indices : List Int}
    {s : Session} (h : s ∈ filterDestroyable sessions indices) : classify s = .Safe := by
  rcases mem_filterDestroyable_iff.mp h with ⟨i, _, _, hs⟩
  exact hs

/-- A token that fails aborts the whole token fold. -/
lemma parseTokens_error {t : List Char} {ts : List (List Char)}
    (hmem : t ∈ ts) (herr : parseToken t = .error ()) :
    parseTokens ts = .error () := by
  induction ts with
  | nil => cases hmem
  | cons a rest ih =>
    rcases List.mem_cons.mp hmem with rfl | hmem'
    · unfold parseTokens
      rw [herr]
      rfl
    · unfold parseTokens
      cases ha : parseToken a with
      | error e => rfl
      | ok i =>
        rw [ih hmem']
        rfl

/-- `pySplit` always returns at least one field. -/
lemma pySplit_ne_nil (sep : Char) (xs : List Char) : pySplit sep xs ≠ [] := by
  cases xs with
  | nil => simp [pySplit]
  | cons c rest =>
    unfold pySplit
    by_cases h : c = sep
    · simp [h]
    · simp only [h, if_false]
      cases pySplit sep rest <;> simp

/-- Unfolding `pySplit` at a separator character. -/
lemma pySplit_cons_sep (sep : Char) (xs : List Char) :
    pySplit sep (sep :: xs) = [] :: pySplit sep xs := by
  conv_lhs => unfold pySplit
  rw [if_pos rfl]

/-- Unfolding `pySplit` at a non-separator character: it is prepended to the
first field. -/
lemma pySplit_cons_not_sep {sep c : Char} (h : ¬ c = sep) (xs : List Char) :
    pySplit sep (c :: xs) =
      (c :: (pySplit sep xs).headD []) :: (pySplit sep xs).tail := by
  conv_lhs => unfold pySplit
  rw [if_neg h]
  cases hs : pySplit sep xs with
  | nil => exact absurd hs (pySplit_ne_nil sep xs)
  | cons t ts => simp [hs]

/-- Splitting distributes over an inserted separator. -/
lemma pySplit_append (sep : Char) (a b : List Char) :
    pySplit sep (a ++ sep :: b) = pySplit sep a ++ pySplit sep b := by
  induction a with
  | nil => simp [pySplit_cons_sep, pySplit]
  | cons c a' ih =>
    by_cases h : c = sep
    · subst h
      simp only [List.cons_append]
      rw [pySplit_cons_sep, pySplit_cons_sep, ih, List.cons_append]
    · simp only [List.cons_append]
      rw [pySplit_cons_not_sep h, pySplit_cons_not_sep h, ih]
      cases hs : pySplit sep a' with
      | nil => exact absurd hs (pySplit_ne_nil sep a')
      | cons t ts => simp

/-- Splitting a separator-free string yields a single field. -/
lemma pySplit_single {sep : Char} {xs : List Char} (h : ∀ c ∈ xs, ¬ c = sep) :
    pySplit sep xs = [xs] := by
  induction xs with
  | nil => rfl
  | cons c rest ih =>
    unfold pySplit
    have hc : ¬ c = sep := h c (List.mem_cons_self c rest)
    simp only [hc, if_false]
    rw [ih (fun d hd => h d (List.mem_cons_of_mem c hd))]

/-- The empty token contributes nothing. -/
lemma parseToken_nil : parseToken [] = .ok [] := rfl

/-- An empty token anywhere in the token list is skipped. -/
lemma parseTokens_skip_empty (xs ys : List (List Char)) :
    parseTokens (xs ++ [] :: ys) = parseTokens (xs ++ ys) := by
  induction xs with
  | nil =>
    simp only [List.nil_append]
    conv_lhs => unfold parseTokens
    rw [parseToken_nil]
    cases hys : parseTokens ys with
    | error e => rfl
    | ok l => rfl
  | cons t xs' ih =>
    simp only [List.cons_append]
    conv_lhs => unfold parseTokens
    conv_rhs => unfold parseTokens
    rw [ih]

/-- Dropping while a predicate holds on a prefix skips the prefix. -/
lemma dropWhile_append_all {p : Char → Bool} {ws : List Char}
    (h : ∀ c ∈ ws, p c = true) (x : List Char) :
    List.dropWhile p (ws ++ x) = List.dropWhile p x := by
  induction ws with
  | nil => rfl
  | cons c ws' ih =>
    simp only [List.cons_append, List.dropWhile_cons,
      h c (List.mem_cons_self c ws'), if_true]
    exact ih (fun d hd => h d (List.mem_cons_of_mem c hd))

/-- Left strip ignores an all-whitespace prefix. -/
lemma lstripL_append_spaces {ws : List Char} (h : ∀ c ∈ ws, isPySpace c = true)
    (x : List Char) : lstripL (ws ++ x) = lstripL x :=
  dropWhile_append_all h x

/-- Right strip ignores an all-whitespace suffix. -/
lemma rstripL_append_spaces (x : List Char) {ws : List Char}
    (h : ∀ c ∈ ws, isPySpace c = true) : rstripL (x ++ ws) = rstripL x := by
  unfold rstripL
  rw [List.reverse_append, dropWhile_append_all (fun c hc => h c (List.mem_reverse.mp hc))]

/-- Left strip over an append. -/
lemma lstripL_append (t w : List Char) :
    lstripL (t ++ w) = if lstripL t = [] then lstripL w else lstripL t ++ w := by
  induction t with
  | nil => simp [lstripL]
  | cons c t' ih =>
    by_cases hc : isPySpace c = true
    · simp only [List.cons_append, lstripL, List.dropWhile_cons, hc, if_true]
      exact ih
    · have hc' : isPySpace c = false := by
        revert hc
        cases isPySpace c <;> simp
      simp [lstripL, List.dropWhile_cons, hc']

/-- Python `strip` removes surrounding whitespace and nothing else. -/
lemma pyStrip_surround {ws t ws' : List Char}
    (h : ∀ c ∈ ws, isPySpace c = true) (h' : ∀ c ∈ ws', isPySpace c = true) :
    pyStrip (ws ++ (t ++ ws')) = pyStrip t := by
  unfold pyStrip
  rw [lstripL_append_spaces h, lstripL_append]
  by_cases ht : lstripL t = []
  · have hw : lstripL ws' = [] := by
      have := dropWhile_append_all h' ([] : List Char)
      simpa [lstripL] using this
    simp [ht, hw]
  · simp only [ht, if_false]
    exact rstripL_append_spaces (lstripL t) h'

/-- Enumerate the whitespace characters. -/
lemma isPySpace_cases {c : Char} (h : isPySpace c = true) :
    c = ' ' ∨ c = '\t' ∨ c = '\n' ∨ c = '\x0d' ∨ c = '\x0b' ∨ c = '\x0c' := by
  unfold isPySpace at h
  simp at h
  tauto

/-- Digits are not whitespace. -/
lemma digit_not_space {c : Char} (h : c.isDigit = true) : isPySpace c = false := by
  cases hs : isPySpace c
  · rfl
  · rcases isPySpace_cases hs with rfl | rfl | rfl | rfl | rfl | rfl <;>
      exact absurd h (by decide)

/-- Digits are neither the comma nor the dash. -/
lemma digit_ne_sep {c : Char} (h : c.isDigit = true) : ¬ c = ',' ∧ ¬ c = '-' := by
  constructor <;> rintro rfl <;> exact absurd h (by decide)

/-- `dropWhile` is the identity on a list whose head fails the predicate. -/
lemma dropWhile_head_false {p : Char → Bool} {xs : List Char}
    (h : ∀ c ∈ xs, p c = false) : List.dropWhile p xs = xs := by
  cases xs with
  | nil => rfl
  | cons c rest =>
    have hc := h c (List.mem_cons_self c rest)
    rw [List.dropWhile_cons, hc]
    simp

/-- `strip` is the identity on whitespace-free strings. -/
lemma pyStrip_no_space {xs : List Char} (h : ∀ c ∈ xs, isPySpace c = false) :
    pyStrip xs = xs := by
  unfold pyStrip lstripL rstripL
  rw [dropWhile_head_false h,
    dropWhile_head_false (fun c hc => h c (List.mem_reverse.mp hc))]
  exact List.reverse_reverse xs

/-- The digit scanner on an all-digit string accumulates the decimal value. -/
lemma natCore_digits {ds : List Char} (h : ∀ c ∈ ds, c.isDigit = true) (acc : Nat) :
    natCore acc ds = some (ds.foldl (fun a c => 10 * a + (c.toNat - 48)) acc) := by
  induction ds generalizing acc with
  | nil => rfl
  | cons c rest ih =>
    unfold natCore
    rw [if_pos (h c (List.mem_cons_self c rest)),
      ih (fun d hd => h d (List.mem_cons_of_mem c hd))]
    rfl

/-- `int(...)` succeeds on a nonempty all-digit string. -/
lemma pyInt_digits {ds : List Char} (hne : ds ≠ []) (h : ∀ c ∈ ds, c.isDigit = true) :
    pyInt ds = some (Int.ofNat (digitsToNat ds)) := by
  unfold pyInt
  rw [pyStrip_no_space (fun c hc => digit_not_space (h c hc))]
  cases ds with
  | nil => exact absurd rfl hne
  | cons c rest =>
    have hc := h c (List.mem_cons_self c rest)
    have h1 : ¬ c = '+' := by
      rintro rfl
      exact absurd hc (by decide)
    have h2 : ¬ c = '-' := by
      rintro rfl
      exact absurd hc (by decide)
    simp only [pyIntCore, natPart, h1, h2, hc, if_false, if_true, ite_false, ite_true]
    rw [natCore_digits h 0]
    rfl

/-- `split(sep, 1)` cuts at the first separator. -/
lemma splitOnce_append {sep : Char} {sa : List Char} (h : ∀ c ∈ sa, ¬ c = sep)
    (sb : List Char) : splitOnce sep (sa ++ sep :: sb) = (sa, sb) := by
  induction sa with
  | nil =>
    simp only [List.nil_append]
    unfold splitOnce
    rw [if_pos rfl]
  | cons c sa' ih =>
    simp only [List.cons_append]
    unfold splitOnce
    rw [if_neg (h c (List.mem_cons_self c sa'))]
    simp only [ih (fun d hd => h d (List.mem_cons_of_mem c hd))]

/-- The order-normalizing swap computes min and max. -/
lemma swap_norm (a b : Int) : (if a > b then (b, a) else (a, b)) = (min a b, max a b) := by
  by_cases h : a > b
  · rw [if_pos h, min_eq_right (le_of_lt h), max_eq_left (le_of_lt h)]
  · rw [if_neg h, min_eq_left (not_lt.mp h), max_eq_right (not_lt.mp h)]

/-- A `a-b` token of two digit strings parses to the normalized range. -/
lemma parseToken_digit_range {sa sb : List Char} (hna : sa ≠ []) (hnb : sb ≠ [])
    (ha : ∀ c ∈ sa, c.isDigit = true) (hb : ∀ c ∈ sb, c.isDigit = true) :
    parseToken (sa ++ '-' :: sb) =
      .ok (intRange (min ((digitsToNat sa : Int) - 1) ((digitsToNat sb : Int) - 1))
        (max ((digitsToNat sa : Int) - 1) ((digitsToNat sb : Int) - 1) + 1)) := by
  unfold parseToken
  have hns : ∀ c ∈ sa ++ '-' :: sb, isPySpace c = false := by
    intro c hc
    rcases List.mem_append.mp hc with hc | hc
    · exact digit_not_space (ha c hc)
    · rcases List.mem_cons.mp hc with rfl | hc
      · decide
      · exact digit_not_space (hb c hc)
  rw [pyStrip_no_space hns]
  unfold parseTokenCore
  rw [if_pos (List.elem_eq_true_of_mem
    (List.mem_append_right sa (List.mem_cons_self '-' sb)))]
  simp only [splitOnce_append (fun c hc => (digit_ne_sep (ha c hc)).2) sb,
    pyInt_digits hna ha, pyInt_digits hnb hb, swap_norm]
  rfl

/-- A singleton token list parses as its token. -/
lemma parseTokens_singleton (t : List Char) : parseTokens [t] = parseToken t := by
  conv_lhs => unfold parseTokens
  cases h : parseToken t with
  | error e => rfl
  | ok i =>
    show Except.ok (i ++ []) = Except.ok i
    rw [List.append_nil]

/-- A separator-free selection string is one token. -/
lemma parseIndicesL_single {input : List Char} (h : ∀ c ∈ input, ¬ c = ',') :
    parseIndicesL input = parseToken input := by
  unfold parseIndicesL
  rw [pySplit_single h, parseTokens_singleton]

/-- A status line with fewer than 5 fields is skipped by `refresh`. -/
lemma parseSessionLine_short {current : Option String} {line : List Char}
    (h : (pySplit ':' line).length < 5) : parseSessionLine current line = .ok none := by
  unfold parseSessionLine
  by_cases hl : line = []
  · rw [if_pos hl]
  · rw [if_neg hl]
    unfold sessionFields
    rw [if_pos h]

/-- A status line whose windows field is not numeric raises `ValueError`. -/
lemma parseSessionLine_badcount {current : Option String} {line : List Char}
    (h5 : 5 ≤ (pySplit ':' line).length)
    (hw : pyInt ((pySplit ':' line).getD 3 []) = none) :
    parseSessionLine current line = .error "ValueError" := by
  have hl : line ≠ [] := by
    rintro rfl
    exact absurd h5 (by decide)
  unfold parseSessionLine
  rw [if_neg hl]
  unfold sessionFields
  rw [if_neg (Nat.not_lt.mpr h5), hw]

/-- A window line with fewer than 4 fields is skipped by `get_windows`. -/
lemma parseWindowLine_short {line : List Char}
    (h : (pySplit ':' line).length < 4) : parseWindowLine line = .ok none := by
  unfold parseWindowLine
  by_cases hl : line = []
  · rw [if_pos hl]
  · rw [if_neg hl]
    unfold windowFields
    rw [if_pos h]

/-- A window line whose pane count is not numeric raises `ValueError`. -/
lemma parseWindowLine_badcount {line : List Char}
    (h4 : 4 ≤ (pySplit ':' line).length)
    (hw : pyInt ((pySplit ':' line).getD 3 []) = none) :
    parseWindowLine line = .error "ValueError" := by
  have hl : line ≠ [] := by
    rintro rfl
    exact absurd h4 (by decide)
  unfold parseWindowLine
  rw [if_neg hl]
  unfold windowFields
  rw [if_neg (Nat.not_lt.mpr h4), hw]

/-- Every index of a successful `parseSelection` lies in `[0, sessionCount)`. -/
lemma parseSelection_ok_bounds {input : String} {n : Nat} {S : Finset Int}
    (h : parseSelection input n = .ok S) : ∀ x ∈ S, 0 ≤ x ∧ x < (n : Int) := by
  intro x hx
  unfold parseSelection parseSelectionL at h
  cases hp : parseIndicesL input.toList with
  | error e =>
    rw [hp] at h
    cases h
  | ok l =>
    rw [hp] at h
    have hS : (filterIndices l n).toFinset = S := by
      injection h
    rw [← hS] at hx
    have hmem := List.mem_toFinset.mp hx
    have := List.of_mem_filter hmem
    simpa using this

/-! ## Claims -/

/-- C1: for every inventory and selected index set, the sessions chosen for
destruction contain no session classified `Current`, `Attached`, or
`Protected`; a selected session is in the kill list iff its class is
`Safe`; and for the inventory
`[workspace (detached), dev (current), tmp (attached)]` with selection
`"1,2,3"` the destroyable set is empty. -/
theorem claim1_filterDestroyable_only_safe :
    (∀ (sessions : List Session) (indices : List Int) (s : Session),
        s ∈ filterDestroyable sessions indices →
          classify s = .Safe ∧ classify s ≠ .Current ∧ classify s ≠ .Attached ∧
            classify s ≠ .Protected) ∧
    (∀ (sessions : List Session) (indices : List Int) (i : Int) (s : Session),
        i ∈ indices → sessions.get? i.toNat = some s →
          (s ∈ filterDestroyable sessions indices ↔ classify s = .Safe)) ∧
    destroyTargets
      [⟨"$0", "workspace", false, 1, false, none⟩,
       ⟨"$1", "dev", false, 1, true, none⟩,
       ⟨"$2", "tmp", true, 1, false, none⟩] "1,2,3" = .ok [] := by
  refine ⟨?_, ?_, by decide⟩
  · intro sessions indices s h
    have hs := mem_filterDestroyable_safe h
    refine ⟨hs, ?_, ?_, ?_⟩ <;> rw [hs] <;> decide
  · intro sessions indices i s hi hget
    constructor
    · intro h
      exact mem_filterDestroyable_safe h
    · intro hsafe
      exact mem_filterDestroyable_iff.mpr ⟨i, hi, hget, hsafe⟩

/-- C1 witness: a concrete detached, unprotected session selected by index 0
is in the kill list, and the theorem yields its `Safe` classification. -/
theorem claim1_witness :
    classify ⟨"$3", "scratch", false, 1, false, none⟩ = .Safe ∧
      (⟨"$3", "scratch", false, 1, false, none⟩ : Session) ∈
        filterDestroyable [⟨"$3", "scratch", false, 1, false, none⟩] [0] := by
  have hmem : (⟨"$3", "scratch", false, 1, false, none⟩ : Session) ∈
      filterDestroyable [⟨"$3", "scratch", false, 1, false, none⟩] [0] := by decide
  exact ⟨(claim1_filterDestroyable_only_safe.1 _ [0] _ hmem).1, hmem⟩

/-- C2: `classify` gives `current` precedence over everything, and a
protected-named session that is neither current nor attached classifies
`Protected`. -/
theorem claim2_classify_precedence :
    (∀ s : Session, s.is_current = true → classify s = .Current) ∧
    (∀ s : Session, s.name = "workspace" → s.attached = false → s.is_current = false →
        classify s = .Protected) := by
  constructor
  · intro s h
    unfold classify
    rw [if_pos h]
  · intro s hn ha hc
    unfold classify
    rw [if_neg, if_neg, if_pos hn]
    · rw [ha]
      exact Bool.false_ne_true
    · rw [hc]
      exact Bool.false_ne_true

/-- C2 witness: a current-and-protected-named session classifies `Current`;
a detached protected-named session classifies `Protected`. -/
theorem claim2_witness :
    classify ⟨"$0", "workspace", true, 1, true, none⟩ = .Current ∧
      classify ⟨"$0", "workspace", false, 1, false, none⟩ = .Protected :=
  ⟨claim2_classify_precedence.1 _ rfl,
   claim2_classify_precedence.2 _ rfl rfl rfl⟩

/-- C6: `parseSelection` splits on commas, reads 1-based singles and
inclusive ranges, and returns 0-based indices:
`parseSelection("2,4-6", 10) = {1,3,4,5}`. -/
theorem claim6_example_parse : parseSelection "2,4-6" 10 = .ok {1, 3, 4, 5} := by
  decide

/-- C8: when both `run` invocations fail (binary unreachable), `refresh`
returns an absent current-session name and an empty session list, without
an error. -/
theorem claim8_refresh_failure_empty :
    refreshModel (runResult none) (runResult none) = .ok (none, []) := by
  decide

/-- C9: the protected-name set is exactly `{"workspace"}`: any detached,
non-current session with another name classifies `Safe`; the name
`"workspace"` classifies `Protected`; and no session in the kill list is
named `workspace`. -/
theorem claim9_protected_is_workspace_only :
    (∀ s : Session, s.is_current = false → s.attached = false → s.name ≠ "workspace" →
        classify s = .Safe) ∧
    (∀ s : Session, s.is_current = false → s.attached = false → s.name = "workspace" →
        classify s = .Protected) ∧
    (∀ (sessions : List Session) (indices : List Int) (s : Session),
        s ∈ filterDestroyable sessions indices → s.name ≠ "workspace") := by
  refine ⟨?_, ?_, ?_⟩
  · intro s hc ha hn
    exact (classify_eq_safe_iff s).mpr ⟨hc, ha, hn⟩
  · intro s hc ha hn
    unfold classify
    rw [if_neg, if_neg, if_pos hn]
    · rw [ha]
      exact Bool.false_ne_true
    · rw [hc]
      exact Bool.false_ne_true
  · intro sessions indices s h
    exact ((classify_eq_safe_iff s).mp (mem_filterDestroyable_safe h)).2.2

/-- C9 witness: concrete instances of all three parts. -/
theorem claim9_witness :
    classify ⟨"$4", "anything-else", false, 2, false, none⟩ = .Safe ∧
      classify ⟨"$5", "workspace", false, 2, false, none⟩ = .Protected ∧
      (⟨"$4", "anything-else", false, 2, false, none⟩ : Session).name ≠ "workspace" := by
  have h := claim9_protected_is_workspace_only
  have hmem : (⟨"$4", "anything-else", false, 2, false, none⟩ : Session) ∈
      filterDestroyable [⟨"$4", "anything-else", false, 2, false, none⟩] [0] := by decide
  exact ⟨h.1 _ rfl rfl (by decide), h.2.1 _ rfl rfl rfl, h.2.2 _ [0] _ hmem⟩

/-- C3 counterexample: a status line with 5 fields whose window-count field
is `xx` is not skipped — the `ValueError` escapes `refresh` (and likewise
`get_windows` for a non-numeric pane count), refuting the claim at this
input. -/
theorem claim3_counterexample :
    refreshModel "main" "$1:dev:0:xx:100" = .error "ValueError" ∧
      getWindowsModel "@1:win:1:zz" = .error "ValueError" := by
  constructor <;> decide

/-- C3 amended: lines with fewer than the expected number of fields are
skipped and parsing of the remaining lines proceeds; but a line with enough
fields whose window-count (refresh) or pane-count (get_windows) field is
not a valid integer makes the whole call fail with `ValueError` instead of
being skipped. -/
theorem claim3_amended_skip_only_short_lines :
    (∀ (current : Option String) (line : List Char),
        (pySplit ':' line).length < 5 → parseSessionLine current line = .ok none) ∧
    (∀ line : List Char,
        (pySplit ':' line).length < 4 → parseWindowLine line = .ok none) ∧
    (∀ (current : Option String) (line : List Char),
        5 ≤ (pySplit ':' line).length → pyInt ((pySplit ':' line).getD 3 []) = none →
          parseSessionLine current line = .error "ValueError") ∧
    (∀ line : List Char,
        4 ≤ (pySplit ':' line).length → pyInt ((pySplit ':' line).getD 3 []) = none →
          parseWindowLine line = .error "ValueError") ∧
    refreshModel "main" "ab\n$1:dev:1:2:99" =
      .ok (some "main", [⟨"$1", "dev", true, 2, false, some 99⟩]) := by
  exact ⟨fun current line h => parseSessionLine_short h,
    fun line h => parseWindowLine_short h,
    fun current line h5 hw => parseSessionLine_badcount h5 hw,
    fun line h4 hw => parseWindowLine_badcount h4 hw,
    by decide⟩

/-- C3 witness: the amended theorem applied to a concrete short line and a
concrete line with a non-numeric count. -/
theorem claim3_witness :
    parseSessionLine (some "main") "ab".toList = .ok none ∧
      parseSessionLine (some "main") "$1:dev:0:xx:100".toList = .error "ValueError" := by
  have h := claim3_amended_skip_only_short_lines
  exact ⟨h.1 (some "main") "ab".toList (by decide),
    h.2.2.1 (some "main") "$1:dev:0:xx:100".toList (by decide) (by decide)⟩

/-- C4: a selection whose comma-separated tokens include one the token
parser rejects makes the whole parse fail with `InvalidSelection`;
`parseSelection("abc", 10)` errors; and an in-syntax selection that merely
filters to the empty set is not an error. -/
theorem claim4_invalid_token_error :
    (∀ (input : String) (n : Nat),
        (∃ t ∈ pySplit ',' input.toList, parseToken t = .error ()) →
          parseSelection input n = .error ()) ∧
    parseSelection "abc" 10 = .error () ∧
    parseSelection "99" 10 = .ok ∅ := by
  refine ⟨?_, by decide, by decide⟩
  rintro input n ⟨t, ht, herr⟩
  unfold parseSelection parseSelectionL parseIndicesL
  rw [parseTokens_error ht herr]
  rfl

/-- C4 witness: the universal part applied to the input `"abc"`. -/
theorem claim4_witness :
    (∃ t ∈ pySplit ',' "abc".toList, parseToken t = .error ()) ∧
      parseSelection "abc" 10 = .error () := by
  have hex : ∃ t ∈ pySplit ',' "abc".toList, parseToken t = .error () := by decide
  exact ⟨hex, claim4_invalid_token_error.1 "abc" 10 hex⟩

/-- C5 counterexample: with integers a = 2, b = -3 the claimed symmetry
fails: `"2--3"` parses (to `{0,1}` under count 10) while `"-3-2"` is an
`InvalidSelection` error, so `parseSelection "a-b"` and
`parseSelection "b-a"` differ. -/
theorem claim5_counterexample :
    parseSelection "2--3" 10 = .ok {0, 1} ∧
      parseSelection "-3-2" 10 = .error () ∧
      parseSelection "2--3" 10 ≠ parseSelection "-3-2" 10 := by
  refine ⟨by decide, by decide, by decide⟩

/-- C5 amended: for nonneg integers written as digit numerals the range
token order-normalizes, so `a-b` and `b-a` parse identically for every
session count; in particular `parseSelection("5-2", 10) = {1,2,3,4}`. -/
theorem claim5_amended_range_normalizes :
    (∀ (sa sb : List Char) (n : Nat), sa ≠ [] → sb ≠ [] →
        (∀ c ∈ sa, c.isDigit = true) → (∀ c ∈ sb, c.isDigit = true) →
          parseSelectionL (sa ++ '-' :: sb) n = parseSelectionL (sb ++ '-' :: sa) n) ∧
    parseSelection "5-2" 10 = .ok {1, 2, 3, 4} := by
  refine ⟨?_, by decide⟩
  intro sa sb n hna hnb ha hb
  have hcomma : ∀ (x y : List Char), (∀ c ∈ x, c.isDigit = true) →
      (∀ c ∈ y, c.isDigit = true) → ∀ c ∈ x ++ '-' :: y, ¬ c = ',' := by
    intro x y hx hy c hc
    rcases List.mem_append.mp hc with hc | hc
    · exact (digit_ne_sep (hx c hc)).1
    · rcases List.mem_cons.mp hc with rfl | hc
      · decide
      · exact (digit_ne_sep (hy c hc)).1
  unfold parseSelectionL
  rw [parseIndicesL_single (hcomma sa sb ha hb),
    parseIndicesL_single (hcomma sb sa hb ha),
    parseToken_digit_range hna hnb ha hb,
    parseToken_digit_range hnb hna hb ha,
    min_comm, max_comm]

/-- C5 witness: the amended universal part applied to the numerals 5 and 2. -/
theorem claim5_witness :
    parseSelectionL ('5' :: '-' :: '2' :: []) 10 =
      parseSelectionL ('2' :: '-' :: '5' :: []) 10 := by
  exact claim5_amended_range_normalizes.1 ['5'] ['2'] 10 (by decide) (by decide)
    (by decide) (by decide)

/-- C7: every successfully parsed selection yields only indices inside
`[0, sessionCount)` — out-of-range indices are dropped after parsing, not
errors — and e.g. `parseSelection("1,99", 10) = {0}`. -/
theorem claim7_out_of_range_dropped :
    (∀ (input : String) (n : Nat) (S : Finset Int),
        parseSelection input n = .ok S → ∀ x ∈ S, 0 ≤ x ∧ x < (n : Int)) ∧
    parseSelection "1,99" 10 = .ok {0} := by
  exact ⟨fun input n S h => parseSelection_ok_bounds h, by decide⟩

/-- C7 witness: the bounds property applied to `"1,99"` with count 10. -/
theorem claim7_witness : (0 : Int) ≤ 0 ∧ (0 : Int) < (10 : Nat) := by
  exact claim7_out_of_range_dropped.1 "1,99" 10 {0} (by decide) 0 (by decide)

/-- C10: empty tokens (from consecutive, leading, or trailing commas) are
silently skipped, and whitespace around a token does not change its parse;
e.g. `"2,,3,"` parses like `"2,3"`. -/
theorem claim10_empty_tokens_skipped :
    (∀ (a b : List Char) (n : Nat),
        parseSelectionL (a ++ ',' :: ',' :: b) n = parseSelectionL (a ++ ',' :: b) n) ∧
    (∀ (s : List Char) (n : Nat), parseSelectionL (',' :: s) n = parseSelectionL s n) ∧
    (∀ (s : List Char) (n : Nat), parseSelectionL (s ++ [',']) n = parseSelectionL s n) ∧
    (∀ ws t ws' : List Char, (∀ c ∈ ws, isPySpace c = true) →
        (∀ c ∈ ws', isPySpace c = true) →
          parseToken (ws ++ (t ++ ws')) = parseToken t) ∧
    parseSelection "2,,3," 5 = parseSelection "2,3" 5 := by
  refine ⟨?_, ?_, ?_, ?_, by decide⟩
  · intro a b n
    unfold parseSelectionL parseIndicesL
    rw [pySplit_append, pySplit_append, pySplit_cons_sep, parseTokens_skip_empty]
  · intro s n
    unfold parseSelectionL parseIndicesL
    rw [pySplit_cons_sep]
    have h := parseTokens_skip_empty [] (pySplit ',' s)
    simp only [List.nil_append] at h
    rw [h]
  · intro s n
    unfold parseSelectionL parseIndicesL
    rw [pySplit_append]
    have h := parseTokens_skip_empty (pySplit ',' s) []
    simp only [List.append_nil] at h
    have hsplit : pySplit ',' ([] : List Char) = [[]] := rfl
    rw [hsplit, h]
  · intro ws t ws' h h'
    unfold parseToken
    rw [pyStrip_surround h h']

/-- C10 witness: whitespace around the token `2` is ignored. -/
theorem claim10_witness : parseToken (' ' :: '2' :: ' ' :: []) = parseToken ['2'] := by
  have h : (' ' :: '2' :: ' ' :: []) = [' '] ++ (['2'] ++ [' ']) := rfl
  rw [h]
  exact claim10_empty_tokens_skipped.2.2.2.1 [' '] ['2'] [' '] (by decide) (by decide)

end TmuxManager
